import Mathlib

/-!
Shallow embedding of `pycodemap` (src/pycodemap/__main__.py) in Lean 4,
with theorems checking the natural-language specification against the code.

Python AST nodes are modelled only as deeply as the program inspects them:
an expression that the program only ever passes to `ast.unparse` is
represented by its unparsed text.
-/

namespace Pycodemap

/-- An arbitrary Python expression, represented by the text `ast.unparse`
would produce for it (the program never looks deeper than that). -/
structure Expr where
  unparse : String
deriving DecidableEq, Repr

/-- An `ast.arg` node: a parameter with its name and optional annotation. -/
structure Arg where
  arg : String
  annotation : Option Expr
deriving DecidableEq, Repr

/-- An `ast.arguments` node.  The program reads only `args`, `vararg` and
`kwarg`; `posonlyargs` and `kwonlyargs` are carried so that theorems can
speak about the parameters the program ignores.  (Defaults are also
ignored by the program and are not modelled.) -/
structure Arguments where
  posonlyargs : List Arg
  args : List Arg
  vararg : Option Arg
  kwonlyargs : List Arg
  kwarg : Option Arg
deriving DecidableEq, Repr

/-- A decorator expression, split by the shapes `get_decorators`
distinguishes: `ast.Name`, `ast.Call` (callee plus positional argument
list, the only parts the program reads), and anything else (kept as its
unparsed text). -/
inductive Decorator where
  | name (id : String)
  | call (func : Expr) (args : List Expr)
  | other (e : Expr)
deriving DecidableEq, Repr

/-- The assignment-target shapes relevant to attribute extraction:
`ast.Name` versus every other target expression (tuple, attribute access,
subscript, starred, ...). -/
inductive Target where
  | name (id : String)
  | tuple
  | attributeAccess
  | subscript
  | otherTarget
deriving DecidableEq, Repr

/-- A Python statement, modelled as deeply as `analyze_file` inspects it.
`functionDef` / `asyncFunctionDef` carry name, arguments, optional return
annotation and decorator list (their bodies are never read by the
program); `classDef` carries name, decorator list and body; `assign` and
`annAssign` carry their targets (the annotation of `annAssign` is kept
optional to mirror the program's own truthiness guard on it).  Every
other statement kind is `other`. -/
inductive Stmt where
  | functionDef (name : String) (args : Arguments) (returns : Option Expr)
      (decorator_list : List Decorator)
  | asyncFunctionDef (name : String) (args : Arguments) (returns : Option Expr)
      (decorator_list : List Decorator)
  | classDef (name : String) (decorator_list : List Decorator) (body : List Stmt)
  | assign (targets : List Target) (value : Expr)
  | annAssign (target : Target) ( annotation : Option Expr)
  | other
deriving Repr

/-- `get_arguments_and_hints(node)`: positional parameters with the
unparsed annotation when present, then `*vararg` and `**kwarg` with no
type text, plus the optional return-type text.  Mirrors lines 10-29 of
`__main__.py`. -/
def get_arguments_and_hints (args : Arguments) (returns : Option Expr) :
    List (String × Option String) × Option String :=
  let args_info := args.args.map fun a => (a.arg, Option.map Expr.unparse (Arg.annotation a))
  let args_info := args_info ++
    (match args.vararg with
     | some v => [("*" ++ v.arg, (none : Option String))]
     | none => [])
  let args_info := args_info ++
    (match args.kwarg with
     | some k => [("**" ++ k.arg, (none : Option String))]
     | none => [])
  (args_info, returns.map Expr.unparse)

/-- Rendering of one decorator, following the `isinstance` branches of
`get_decorators`: an `ast.Name` yields its `id`; an `ast.Call` joins the
unparsed positional arguments with `", "` and appends them in parentheses
to the unparsed callee when the joined text is non-empty (Python's
truthiness test `if args`), else yields just the callee text; any other
shape yields its unparsed text. -/
def render_decorator : Decorator → String
  | .name id => id
  | .call func args =>
      let func_name := func.unparse
      let joined := String.intercalate ", " (args.map Expr.unparse)
      if joined = "" then func_name else func_name ++ "(" ++ joined ++ ")"
  | .other e => e.unparse

/-- `get_decorators(node)`: each decorator of the list rendered in order. -/
def get_decorators (decorator_list : List Decorator) : List String :=
  decorator_list.map render_decorator

/-- The dictionary built for a method or a top-level function
(`{"name": ..., "args": ..., "return_type": ..., "decorators": ...}`). -/
structure FunctionRecord where
  name : String
  args : List (String × Option String)
  return_type : Option String
  decorators : List String
deriving DecidableEq, Repr

/-- The dictionary built for a class attribute (`{"name": ..., "type": ...}`). -/
structure AttributeRecord where
  name : String
  type : Option String
deriving DecidableEq, Repr

/-- The dictionary built for a class
(`{"name": ..., "decorators": ..., "methods": ..., "attributes": ...}`). -/
structure ClassRecord where
  name : String
  decorators : List String
  methods : List FunctionRecord
  attributes : List AttributeRecord
deriving DecidableEq, Repr

/-- The inner `for child in node.body` loop of `analyze_file`: collects the
method records and the attribute records of one class body, in source
order.  A `FunctionDef` child yields a method; an `Assign`/`AnnAssign`
child yields an attribute when the extracted name is truthy (`if name:`),
where for `AnnAssign` the name comes from a `Name` target and for `Assign`
from `targets[0]` being a `Name`; every other child is ignored. -/
def class_body_scan : List Stmt → List FunctionRecord × List AttributeRecord
  | [] => ([], [])
  | child :: rest =>
    let (methods, attributes) := class_body_scan rest
    match child with
    | .functionDef name args returns decorator_list =>
        let (a, return_type) := get_arguments_and_hints args returns
        (⟨name, a, return_type, get_decorators decorator_list⟩ :: methods, attributes)
    | .annAssign target annotation =>
        let name : Option String :=
          match target with | .name id => some id | _ => none
        let annotationText := annotation.map Expr.unparse
        match name with
        | some n => if n = "" then (methods, attributes)
                    else (methods, ⟨n, annotationText⟩ :: attributes)
        | none => (methods, attributes)
    | .assign targets _ =>
        let name : Option String :=
          match targets with | .name id :: _ => some id | _ => none
        match name with
        | some n => if n = "" then (methods, attributes)
                    else (methods, ⟨n, (none : Option String)⟩ :: attributes)
        | none => (methods, attributes)
    | _ => (methods, attributes)

/-- The outer `for node in tree.body` loop of `analyze_file`: a `ClassDef`
contributes a `ClassRecord` when `include_classes`, a `FunctionDef`
contributes a `FunctionRecord` when `include_functions`; everything else
(including `AsyncFunctionDef`) is ignored. -/
def extract_declarations (body : List Stmt)
    (include_classes include_functions : Bool) :
    List ClassRecord × List FunctionRecord :=
  match body with
  | [] => ([], [])
  | node :: rest =>
    let (classes, functions) := extract_declarations rest include_classes include_functions
    match node with
    | .classDef name decorator_list cbody =>
        if include_classes then
          let (methods, attributes) := class_body_scan cbody
          (⟨name, get_decorators decorator_list, methods, attributes⟩ :: classes,
           functions)
        else (classes, functions)
    | .functionDef name args returns decorator_list =>
        if include_functions then
          let (a, return_type) := get_arguments_and_hints args returns
          (classes, ⟨name, a, return_type, get_decorators decorator_list⟩ :: functions)
        else (classes, functions)
    | _ => (classes, functions)

/-- The failure `analyze_file` can raise: `ast.parse` throwing
`SyntaxError` on unparseable file content. -/
inductive AnalyzeError where
  | parseFailure
deriving DecidableEq, Repr

/-- One candidate file as the driver sees it: its path and the result of
parsing its bytes (`none` models `ast.parse` raising `SyntaxError`). -/
structure PyFile where
  path : String
  parsed : Option (List Stmt)

/-- `analyze_file(filepath, include_classes, include_functions)`: parse the
file, then extract the class and function records.  A file whose bytes do
not parse makes the call fail with `parseFailure` (the uncaught
`SyntaxError`). -/
def analyze_file (f : PyFile) (include_classes include_functions : Bool) :
    Except AnalyzeError (List ClassRecord × List FunctionRecord) :=
  match f.parsed with
  | none => .error .parseFailure
  | some body => .ok (extract_declarations body include_classes include_functions)

/-- One rendered parameter: `f"{name}: {hint}" if hint else name` (the
truthiness test makes an empty hint render like an absent one). -/
def render_param : String × Option String → String
  | (name, hint) =>
    match hint with
    | some h => if h = "" then name else name ++ ": " ++ h
    | none => name

/-- The comma-joined argument text of a method or function line. -/
def render_args_text (args : List (String × Option String)) : String :=
  String.intercalate ", " (args.map render_param)

/-- The return-type suffix: `f" -> {rt}" if rt else ""`. -/
def render_return_suffix : Option String → String
  | some r => if r = "" then "" else " -> " ++ r
  | none => ""

/-- One attribute line: `f"    {name}{attr_type}"` where `attr_type` is
`f": {type}" if type else ""`. -/
def attribute_line (a : AttributeRecord) : String :=
  let attr_type := match a.type with
    | some t => if t = "" then "" else ": " ++ t
    | none => ""
  "    " ++ a.name ++ attr_type

/-- The `decorators_output` list built for a method: index 0 gets prefix
`"    "`, later indices `"    |"`, each followed by `@` and the text. -/
def method_decorators_output (decorators : List String) : List String :=
  decorators.enum.map fun p => (if p.1 = 0 then "    " else "    |") ++ "@" ++ p.2

/-- The `decorators_output` list built for a top-level function: index 0
gets prefix `"   "`, later indices `"  |"`. -/
def function_decorators_output (decorators : List String) : List String :=
  decorators.enum.map fun p => (if p.1 = 0 then "   " else "  |") ++ "@" ++ p.2

/-- The `method_output` line: label `Method: ` unless minimalistic. -/
def method_output_line (minimalistic : Bool) (m : FunctionRecord) : String :=
  let args := render_args_text m.args
  let return_type := render_return_suffix m.return_type
  if minimalistic then "    " ++ m.name ++ "(" ++ args ++ ")" ++ return_type
  else "    Method: " ++ m.name ++ "(" ++ args ++ ")" ++ return_type

/-- The `function_output` line: label `Function: ` (two-space indent)
unless minimalistic (four-space indent, no label). -/
def function_output_line (minimalistic : Bool) (f : FunctionRecord) : String :=
  let args := render_args_text f.args
  let return_type := render_return_suffix f.return_type
  if minimalistic then "    " ++ f.name ++ "(" ++ args ++ ")" ++ return_type
  else "  Function: " ++ f.name ++ "(" ++ args ++ ")" ++ return_type

/-- The `output` elements appended for one method: the decorator block
joined with newlines (appended only when non-empty), the method line, and
a blank line. -/
def method_block (minimalistic : Bool) (m : FunctionRecord) : List String :=
  let decorators_output := method_decorators_output m.decorators
  (if decorators_output.isEmpty then []
   else [String.intercalate "\n" decorators_output])
  ++ [method_output_line minimalistic m, ""]

/-- The `output` elements appended for one top-level function. -/
def function_block (minimalistic : Bool) (f : FunctionRecord) : List String :=
  let decorators_output := function_decorators_output f.decorators
  (if decorators_output.isEmpty then []
   else [String.intercalate "\n" decorators_output])
  ++ [function_output_line minimalistic f, ""]

/-- The `output` elements appended for one class: its decorators (each as
`  @<text>`), the `  Class: <name>` line, a blank line, the attribute
lines plus a blank line when attributes are shown and present, then the
method blocks. -/
def class_block (minimalistic no_attributes : Bool) (c : ClassRecord) :
    List String :=
  (c.decorators.map fun decorator => "  @" ++ decorator)
  ++ ["  Class: " ++ c.name, ""]
  ++ (if !no_attributes && !c.attributes.isEmpty then
        c.attributes.map attribute_line ++ [""]
      else [])
  ++ c.methods.flatMap (method_block minimalistic)

/-- The `output` list built by `format_output` before the final
`"\n".join`.  Empty unless some included section is non-empty; otherwise
the header, the class blocks, the function section (with its
`"  Functions:\n"` header in minimalistic mode and a trailing blank
element), and a final blank element. -/
def format_output_list (filepath : String) (classes : List ClassRecord)
    (functions : List FunctionRecord)
    (include_classes include_functions minimalistic no_attributes : Bool) :
    List String :=
  if (include_classes && !classes.isEmpty) ||
     (include_functions && !functions.isEmpty) then
    ["=== " ++ filepath ++ ": ===", ""]
    ++ (if include_classes && !classes.isEmpty then
          classes.flatMap (class_block minimalistic no_attributes)
        else [])
    ++ (if include_functions && !functions.isEmpty then
          (if minimalistic then ["  Functions:\n"] else [])
          ++ functions.flatMap (function_block minimalistic)
          ++ [""]
        else [])
    ++ [""]
  else []

/-- `format_output(...)`: the joined text of `format_output_list`. -/
def format_output (filepath : String) (classes : List ClassRecord)
    (functions : List FunctionRecord)
    (include_classes include_functions minimalistic no_attributes : Bool) :
    String :=
  String.intercalate "\n"
    (format_output_list filepath classes functions include_classes
      include_functions minimalistic no_attributes)

/-- Truthiness of `result.strip()` in the driver: a stripped string is
non-empty exactly when the string has a character that is not whitespace,
which is how the test is modelled (the kernel cannot evaluate
`String.trim`). -/
def strip_truthy (s : String) : Bool :=
  s.data.any fun c => !c.isWhitespace

/-- The per-file loop of `run`, over the already-enumerated candidate
files: each file is analyzed and formatted, and a result that is non-blank
after `strip()` is emitted.  An exception raised by `analyze_file` is not
caught anywhere in `run`, so it aborts the loop: nothing more is emitted
and the error escapes.  Returns the emitted results in order, paired with
the aborting error when one occurred. -/
def run_files (files : List PyFile)
    (include_classes include_functions minimalistic no_attributes : Bool) :
    List String × Option AnalyzeError :=
  match files with
  | [] => ([], none)
  | f :: rest =>
    match analyze_file f include_classes include_functions with
    | .error e => ([], some e)
    | .ok (classes, functions) =>
      let result := format_output f.path classes functions include_classes
        include_functions minimalistic no_attributes
      let (outs, err) := run_files rest include_classes include_functions
        minimalistic no_attributes
      (if strip_truthy result then result :: outs else outs, err)

/-- Observation helper: is this statement a (plain) class declaration? -/
def is_class_def : Stmt → Bool
  | .classDef _ _ _ => true
  | _ => false

/-- Observation helper: is this statement a plain function declaration? -/
def is_function_def : Stmt → Bool
  | .functionDef _ _ _ _ => true
  | _ => false

/-- The class names of a statement list, in the order the declarations
appear in the source (the spec's phrase "the order the declarations
appear in the source text"). -/
def declared_class_names (body : List Stmt) : List String :=
  body.filterMap fun s =>
    match s with
    | .classDef n _ _ => some n
    | _ => none

/-- The plain-function names of a statement list, in source order. -/
def declared_function_names (body : List Stmt) : List String :=
  body.filterMap fun s =>
    match s with
    | .functionDef n _ _ _ => some n
    | _ => none

/-- The recordable attribute names of a class body, in source order: a
truthy simple-name target of an annotated assignment, or a truthy
simple-name first target of a plain assignment. -/
def declared_attribute_names (body : List Stmt) : List String :=
  body.filterMap fun s =>
    match s with
    | .annAssign (.name n) _ => if n = "" then none else some n
    | .assign (.name n :: _) _ => if n = "" then none else some n
    | _ => none

/-- C4: A variadic-positional parameter named `x` is normalized to the
pair `("*x", none)` and a variadic-keyword parameter named `x` to
`("**x", none)`; the result is unchanged when the variadic parameter's
source annotation is erased, i.e. variadic annotation text is always
dropped. -/
theorem spec_C4 (args : Arguments) (r : Option Expr) (x : String)
    (ann : Option Expr) :
    (get_arguments_and_hints { args with vararg := some ⟨x, ann⟩ } r
        = get_arguments_and_hints { args with vararg := some ⟨x, none⟩ } r
      ∧ ("*" ++ x, (none : Option String))
          ∈ (get_arguments_and_hints { args with vararg := some ⟨x, ann⟩ } r).1)
    ∧ (get_arguments_and_hints { args with kwarg := some ⟨x, ann⟩ } r
        = get_arguments_and_hints { args with kwarg := some ⟨x, none⟩ } r
      ∧ ("**" ++ x, (none : Option String))
          ∈ (get_arguments_and_hints { args with kwarg := some ⟨x, ann⟩ } r).1) := by
  refine ⟨⟨rfl, ?_⟩, ⟨rfl, ?_⟩⟩
  · simp [get_arguments_and_hints]
  · simp [get_arguments_and_hints]

/-- C9: keyword-only and positional-only parameters are silently omitted:
the normalized parameter sequence does not depend on `posonlyargs` or
`kwonlyargs` at all, and consists exactly of the plain positional
parameters followed by the variadic-positional and variadic-keyword
markers. -/
theorem spec_C9 (args : Arguments) (r : Option Expr) (po ko : List Arg) :
    get_arguments_and_hints { args with posonlyargs := po, kwonlyargs := ko } r
      = get_arguments_and_hints args r
    ∧ (get_arguments_and_hints args r).1
      = args.args.map (fun a => (a.arg, Option.map Expr.unparse (Arg.annotation a)))
        ++ ((match args.vararg with
             | some v => [("*" ++ v.arg, (none : Option String))]
             | none => [])
          ++ (match args.kwarg with
             | some k => [("**" ++ k.arg, (none : Option String))]
             | none => [])) := by
  refine ⟨rfl, ?_⟩
  simp [get_arguments_and_hints, List.append_assoc]

/-- Congruence of the extraction loop in its tail: processing one more
leading statement preserves equality of the results on the rest. -/
theorem extract_declarations_cons_congr (x : Stmt) {l₁ l₂ : List Stmt}
    (ic ifn : Bool)
    (h : extract_declarations l₁ ic ifn = extract_declarations l₂ ic ifn) :
    extract_declarations (x :: l₁) ic ifn
      = extract_declarations (x :: l₂) ic ifn := by
  simp only [extract_declarations]
  rw [h]

/-- Congruence of the class-body loop in its tail. -/
theorem class_body_scan_cons_congr (x : Stmt) {l₁ l₂ : List Stmt}
    (h : class_body_scan l₁ = class_body_scan l₂) :
    class_body_scan (x :: l₁) = class_body_scan (x :: l₂) := by
  simp only [class_body_scan]
  rw [h]

/-- C10: async function definitions are silently ignored everywhere — an
`AsyncFunctionDef` node contributes nothing, whether it occurs at the top
level of a module or as a direct child of a class body. -/
theorem spec_C10 (pre post : List Stmt) (name : String) (args : Arguments)
    (r : Option Expr) (ds : List Decorator) (ic ifn : Bool) :
    extract_declarations (pre ++ .asyncFunctionDef name args r ds :: post) ic ifn
      = extract_declarations (pre ++ post) ic ifn
    ∧ class_body_scan (pre ++ .asyncFunctionDef name args r ds :: post)
      = class_body_scan (pre ++ post) := by
  induction pre with
  | nil => exact ⟨rfl, rfl⟩
  | cons x xs ih =>
    exact ⟨extract_declarations_cons_congr x ic ifn ih.1,
           class_body_scan_cons_congr x ih.2⟩

/-- With both toggles on, the extracted class records carry exactly the
declared class names, in source order. -/
theorem extract_classes_names (body : List Stmt) :
    ((extract_declarations body true true).1).map ClassRecord.name
      = declared_class_names body := by
  induction body with
  | nil => rfl
  | cons x xs ih =>
    cases x <;>
      simp [extract_declarations, declared_class_names, List.filterMap_cons, ih]

/-- With both toggles on, the extracted function records carry exactly the
declared plain-function names, in source order. -/
theorem extract_functions_names (body : List Stmt) :
    ((extract_declarations body true true).2).map FunctionRecord.name
      = declared_function_names body := by
  induction body with
  | nil => rfl
  | cons x xs ih =>
    cases x <;>
      simp [extract_declarations, declared_function_names, List.filterMap_cons, ih]

/-- The method records of a class body carry exactly the declared
plain-function names of the body, in source order. -/
theorem class_body_scan_method_names (body : List Stmt) :
    ((class_body_scan body).1).map FunctionRecord.name
      = declared_function_names body := by
  induction body with
  | nil => rfl
  | cons x xs ih =>
    cases x with
    | annAssign t a =>
        cases t <;>
          simp [class_body_scan, declared_function_names, List.filterMap_cons, ih] <;>
          split <;> simp [ih, declared_function_names]
    | assign ts v =>
        match ts with
        | [] => simpa [class_body_scan, declared_function_names, List.filterMap_cons] using ih
        | t :: rest =>
          cases t <;>
            simp [class_body_scan, declared_function_names, List.filterMap_cons, ih] <;>
            split <;> simp [ih, declared_function_names]
    | _ =>
        simp [class_body_scan, declared_function_names, List.filterMap_cons, ih]

/-- The attribute records of a class body carry exactly the recordable
attribute names of the body, in source order. -/
theorem class_body_scan_attribute_names (body : List Stmt) :
    ((class_body_scan body).2).map AttributeRecord.name
      = declared_attribute_names body := by
  induction body with
  | nil => rfl
  | cons x xs ih =>
    cases x with
    | annAssign t a =>
        cases t <;>
          simp [class_body_scan, declared_attribute_names, List.filterMap_cons, ih] <;>
          split <;> simp [ih, declared_attribute_names]
    | assign ts v =>
        match ts with
        | [] => simpa [class_body_scan, declared_attribute_names, List.filterMap_cons] using ih
        | t :: rest =>
          cases t <;>
            simp [class_body_scan, declared_attribute_names, List.filterMap_cons, ih] <;>
            split <;> simp [ih, declared_attribute_names]
    | _ =>
        simp [class_body_scan, declared_attribute_names, List.filterMap_cons, ih]

/-- C7: every output sequence preserves source order with no sorting,
deduplication or merging: the normalized parameter names are the
positional names in declared order followed by the `*` marker then the
`**` marker; extracted class, function, method and attribute records list
the declarations in source order; decorators are a one-to-one in-order
map; and the rendered argument list joins the parameters in that same
order. -/
theorem spec_C7 (args : Arguments) (r : Option Expr) (body cbody : List Stmt)
    (ds : List Decorator) (ps : List (String × Option String)) :
    (get_arguments_and_hints args r).1.map Prod.fst
      = args.args.map Arg.arg
        ++ ((match args.vararg with
             | some v => ["*" ++ v.arg]
             | none => [])
          ++ (match args.kwarg with
             | some k => ["**" ++ k.arg]
             | none => []))
    ∧ ((extract_declarations body true true).1).map ClassRecord.name
        = declared_class_names body
    ∧ ((extract_declarations body true true).2).map FunctionRecord.name
        = declared_function_names body
    ∧ ((class_body_scan cbody).1).map FunctionRecord.name
        = declared_function_names cbody
    ∧ ((class_body_scan cbody).2).map AttributeRecord.name
        = declared_attribute_names cbody
    ∧ get_decorators ds = ds.map render_decorator
    ∧ render_args_text ps = String.intercalate ", " (ps.map render_param) := by
  refine ⟨?_, extract_classes_names body, extract_functions_names body,
    class_body_scan_method_names cbody, class_body_scan_attribute_names cbody,
    rfl, rfl⟩
  cases hv : args.vararg <;> cases hk : args.kwarg <;>
    simp [get_arguments_and_hints, hv, hk, List.map_append]

/-- At positions 1 and later, the enumerated decorator loop always picks
the continuation `B`, never the first-line value `A`. -/
theorem decorators_output_tail (A B : String) (ds : List String) (n : Nat) :
    (List.enumFrom (n + 1) ds).map
        (fun p => (if p.1 = 0 then A else B) ++ "@" ++ p.2)
      = ds.map (fun x => B ++ "@" ++ x) := by
  induction ds generalizing n with
  | nil => rfl
  | cons x xs ih => simp [List.enumFrom_cons, ih]

/-- The method decorator block: first line prefixed by four spaces then
`@`, each later line by `    |` then `@`. -/
theorem method_decorators_output_cons (d : String) (ds : List String) :
    method_decorators_output (d :: ds)
      = ("    " ++ "@" ++ d) :: ds.map (fun x => "    |" ++ "@" ++ x) := by
  simp [method_decorators_output, List.enum_cons, decorators_output_tail]

/-- The top-level-function decorator block: first line prefixed by three
spaces then `@`, each later line by `  |` then `@`. -/
theorem function_decorators_output_cons (d : String) (ds : List String) :
    function_decorators_output (d :: ds)
      = ("   " ++ "@" ++ d) :: ds.map (fun x => "  |" ++ "@" ++ x) := by
  simp [function_decorators_output, List.enum_cons, decorators_output_tail]

/-- C8: for a method with decorators the rendered block starts with four
spaces then `@` and continues with `    |@` lines, while for a top-level
function it starts with three spaces then `@` and continues with `  |@`
lines — the asymmetric indentation, preserved exactly in the emitted
output elements. -/
theorem spec_C8 (minimalistic : Bool) (name : String)
    (args : List (String × Option String)) (ret : Option String)
    (d : String) (ds : List String) :
    method_block minimalistic ⟨name, args, ret, d :: ds⟩
      = [String.intercalate "\n"
           (("    " ++ "@" ++ d) :: ds.map (fun x => "    |" ++ "@" ++ x)),
         method_output_line minimalistic ⟨name, args, ret, d :: ds⟩, ""]
    ∧ function_block minimalistic ⟨name, args, ret, d :: ds⟩
      = [String.intercalate "\n"
           (("   " ++ "@" ++ d) :: ds.map (fun x => "  |" ++ "@" ++ x)),
         function_output_line minimalistic ⟨name, args, ret, d :: ds⟩, ""] := by
  constructor
  · simp [method_block, method_decorators_output_cons]
  · simp [function_block, function_decorators_output_cons]

/-- A non-empty string has positive length. -/
theorem length_pos_of_ne_empty (s : String) (h : s ≠ "") : 0 < s.length := by
  cases s with
  | mk data =>
    cases data with
    | nil => exact absurd rfl h
    | cons c cs => simp [String.length]

/-- The accumulator length never shrinks in `String.intercalate.go`. -/
theorem intercalate_go_length (l : List String) (s acc : String) :
    acc.length ≤ (String.intercalate.go acc s l).length := by
  induction l generalizing acc with
  | nil => simp [String.intercalate.go]
  | cons a as ih =>
    calc acc.length ≤ (acc ++ s ++ a).length := by simp; omega
    _ ≤ _ := by
      rw [show String.intercalate.go acc s (a :: as)
            = String.intercalate.go (acc ++ s ++ a) s as from rfl]
      exact ih (acc ++ s ++ a)

/-- Joining a non-empty list of non-empty strings with `", "` yields a
non-empty string. -/
theorem intercalate_ne_empty (a : String) (as : List String)
    (h : ∀ x ∈ a :: as, x ≠ "") : String.intercalate ", " (a :: as) ≠ "" := by
  have ha : 0 < a.length :=
    length_pos_of_ne_empty a (h a (List.mem_cons_self a as))
  have hlen : a.length ≤ (String.intercalate ", " (a :: as)).length := by
    rw [show String.intercalate ", " (a :: as)
          = String.intercalate.go a ", " as from rfl]
    exact intercalate_go_length as ", " a
  intro hEq
  rw [hEq] at hlen
  simp at hlen
  omega

/-- C5: a decorator that is a call with at least one argument renders as
the callee text followed by the comma-joined argument texts in
parentheses, while a call with zero arguments renders as just the callee
text, textually identical to a bare reference to the callee. -/
theorem spec_C5 (func : Expr) (args : List Expr) (hargs : args ≠ [])
    (htext : ∀ e ∈ args, e.unparse ≠ "") :
    render_decorator (.call func args)
      = func.unparse ++ "("
          ++ String.intercalate ", " (args.map Expr.unparse) ++ ")"
    ∧ render_decorator (.call func [])
      = render_decorator (.name func.unparse) := by
  refine ⟨?_, rfl⟩
  match args with
  | a :: as =>
    have hne : String.intercalate ", " (a.unparse :: as.map Expr.unparse) ≠ "" := by
      apply intercalate_ne_empty
      intro x hx
      rcases List.mem_cons.mp hx with rfl | hx
      · exact htext a (List.mem_cons_self a as)
      · rcases List.mem_map.mp hx with ⟨e, he, rfl⟩
        exact htext e (List.mem_cons_of_mem a he)
    simp [render_decorator, hne]

/-- Witness for C5 at the decorator `@f(x, 1)` and at `@f()` versus `@f`. -/
theorem spec_C5_witness :
    render_decorator (.call ⟨"f"⟩ [⟨"x"⟩, ⟨"1"⟩]) = "f(x, 1)"
    ∧ render_decorator (.call ⟨"f"⟩ []) = render_decorator (.name "f") := by
  have h := spec_C5 ⟨"f"⟩ [⟨"x"⟩, ⟨"1"⟩] (by decide) (by decide)
  refine ⟨?_, h.2⟩
  rw [h.1]
  rfl

/-- No class records are extracted when the class toggle is off. -/
theorem extract_fst_nil_of_not_included (body : List Stmt) (ifn : Bool) :
    (extract_declarations body false ifn).1 = [] := by
  induction body with
  | nil => rfl
  | cons x xs ih =>
    cases x <;> simp [extract_declarations, ih] <;> split <;> simp [ih]

/-- No function records are extracted when the function toggle is off. -/
theorem extract_snd_nil_of_not_included (body : List Stmt) (ic : Bool) :
    (extract_declarations body ic false).2 = [] := by
  induction body with
  | nil => rfl
  | cons x xs ih =>
    cases x <;> simp [extract_declarations, ih] <;> split <;> simp [ih]

/-- No class records are extracted from a body with no class declaration. -/
theorem extract_fst_nil_of_no_class (body : List Stmt) (ic ifn : Bool)
    (h : ∀ s ∈ body, is_class_def s = false) :
    (extract_declarations body ic ifn).1 = [] := by
  induction body with
  | nil => rfl
  | cons x xs ih =>
    have hx := h x (List.mem_cons_self x xs)
    have hxs : ∀ s ∈ xs, is_class_def s = false :=
      fun s hs => h s (List.mem_cons_of_mem x hs)
    cases x <;>
      solve
        | (simp [extract_declarations, ih hxs] <;> split <;> simp [ih hxs])
        | simp [is_class_def] at hx

/-- No function records are extracted from a body with no plain function
declaration. -/
theorem extract_snd_nil_of_no_function (body : List Stmt) (ic ifn : Bool)
    (h : ∀ s ∈ body, is_function_def s = false) :
    (extract_declarations body ic ifn).2 = [] := by
  induction body with
  | nil => rfl
  | cons x xs ih =>
    have hx := h x (List.mem_cons_self x xs)
    have hxs : ∀ s ∈ xs, is_function_def s = false :=
      fun s hs => h s (List.mem_cons_of_mem x hs)
    cases x <;>
      solve
        | (simp [extract_declarations, ih hxs] <;> split <;> simp [ih hxs])
        | simp [is_function_def] at hx

/-- C3: a file with no class or function declarations, or whose only
declarations are excluded by the inclusion toggles, produces empty text
from `format_output` — no header, nothing — and the driver loop skips the
file entirely, emitting exactly what it would emit without it. -/
theorem spec_C3 (path : String) (body : List Stmt) (rest : List PyFile)
    (ic ifn mini noattr : Bool)
    (hc : ic = false ∨ ∀ s ∈ body, is_class_def s = false)
    (hf : ifn = false ∨ ∀ s ∈ body, is_function_def s = false) :
    format_output path (extract_declarations body ic ifn).1
        (extract_declarations body ic ifn).2 ic ifn mini noattr = ""
    ∧ run_files ({ path := path, parsed := some body } :: rest) ic ifn mini noattr
      = run_files rest ic ifn mini noattr := by
  have h1 : (ic && !(extract_declarations body ic ifn).1.isEmpty) = false := by
    rcases hc with rfl | hc
    · rfl
    · simp [extract_fst_nil_of_no_class body ic ifn hc]
  have h2 : (ifn && !(extract_declarations body ic ifn).2.isEmpty) = false := by
    rcases hf with rfl | hf
    · rfl
    · simp [extract_snd_nil_of_no_function body ic ifn hf]
  have hfo : format_output path (extract_declarations body ic ifn).1
      (extract_declarations body ic ifn).2 ic ifn mini noattr = "" := by
    rw [format_output, format_output_list, h1, h2]
    rfl
  refine ⟨hfo, ?_⟩
  simp only [run_files, analyze_file]
  rw [hfo]
  rfl

/-- Witness for C3: a file whose only top-level statement is an import-like
non-declaration yields empty text and is skipped by the driver. -/
theorem spec_C3_witness :
    format_output "a.py" (extract_declarations [Stmt.other] true true).1
        (extract_declarations [Stmt.other] true true).2 true true false false = ""
    ∧ run_files ({ path := "a.py", parsed := some [Stmt.other] } :: []) true true false false
      = run_files [] true true false false :=
  spec_C3 "a.py" [Stmt.other] [] true true false false
    (Or.inr (by decide)) (Or.inr (by decide))

/-- C1 fails as stated: with an unparseable file followed by a healthy
file, the driver loop emits nothing and the parse failure escapes — the
healthy file, which on its own produces one output block, is never
processed, so the driver does not "report and continue". -/
theorem spec_C1_counterexample :
    run_files [{ path := "bad.py", parsed := none },
               { path := "good.py", parsed := some [.classDef "C" [] []] }]
        true true false false
      = ([], some .parseFailure)
    ∧ run_files [{ path := "good.py", parsed := some [.classDef "C" [] []] }]
        true true false false
      = (["=== good.py: ===\n\n  Class: C\n\n"], none) := by
  constructor
  · rfl
  · rfl

/-- C1, amended: `analyze_file` does fail with a ParseFailure on a file
whose bytes cannot be parsed, but the failure is not handled per-file —
the driver loop in `run` has no handler, so the exception propagates and
aborts the whole traversal, and no remaining file is processed. -/
theorem spec_C1 (f : PyFile) (rest : List PyFile) (ic ifn mini noattr : Bool)
    (h : f.parsed = none) :
    analyze_file f ic ifn = .error .parseFailure
    ∧ run_files (f :: rest) ic ifn mini noattr = ([], some .parseFailure) := by
  have ha : analyze_file f ic ifn = .error .parseFailure := by
    simp [analyze_file, h]
  refine ⟨ha, ?_⟩
  simp [run_files, ha]

/-- Witness for C1 at a concrete unparseable file. -/
theorem spec_C1_witness :
    analyze_file { path := "bad.py", parsed := none } true true
      = .error .parseFailure
    ∧ run_files [{ path := "bad.py", parsed := none }] true true false false
      = ([], some .parseFailure) :=
  spec_C1 { path := "bad.py", parsed := none } [] true true false false rfl

/-- C2 fails as stated: in minimalistic mode the `Class:` label is not
omitted — a class named `C` still renders the line `  Class: C`. -/
theorem spec_C2_counterexample :
    "  Class: C" ∈ format_output_list "p" [⟨"C", [], [], []⟩] [] true true true false := by
  decide

/-- C2, amended: minimalistic mode omits the `Method:` and `Function:`
label prefixes from method and function lines (full mode keeps them), but
class lines carry the `Class:` label in every mode. -/
theorem spec_C2 (name : String) (args : List (String × Option String))
    (ret : Option String) (decs : List String) (mini noattr : Bool)
    (c : ClassRecord) :
    method_output_line true ⟨name, args, ret, decs⟩
      = "    " ++ name ++ "(" ++ render_args_text args ++ ")"
        ++ render_return_suffix ret
    ∧ function_output_line true ⟨name, args, ret, decs⟩
      = "    " ++ name ++ "(" ++ render_args_text args ++ ")"
        ++ render_return_suffix ret
    ∧ method_output_line false ⟨name, args, ret, decs⟩
      = "    Method: " ++ name ++ "(" ++ render_args_text args ++ ")"
        ++ render_return_suffix ret
    ∧ function_output_line false ⟨name, args, ret, decs⟩
      = "  Function: " ++ name ++ "(" ++ render_args_text args ++ ")"
        ++ render_return_suffix ret
    ∧ ("  Class: " ++ c.name) ∈ class_block mini noattr c := by
  refine ⟨rfl, rfl, rfl, rfl, ?_⟩
  simp [class_block]

/-- C6 fails as stated: an assignment with multiple targets `a = b = 1`
is not skipped — the scan records an attribute for the first target. -/
theorem spec_C6_counterexample :
    (class_body_scan [.assign [.name "a", .name "b"] ⟨"1"⟩]).2
      = [{ name := "a", type := none }] := by
  decide

/-- C6, amended: an attribute record is produced from an annotated
assignment whose target is a simple name, or from a plain assignment
whose FIRST target is a simple name (later targets of a multi-target
assignment are ignored, but the statement is not skipped); an assignment
whose (first) target has any other shape is silently skipped, and no case
raises an error (the scan is total). -/
theorem spec_C6 (rest : List Stmt) (n : String) (ts : List Target)
    (v : Expr) (ann : Option Expr) (t : Target)
    (hn : n ≠ "") (ht : ∀ id, t ≠ .name id) :
    class_body_scan (.annAssign (.name n) ann :: rest)
      = ((class_body_scan rest).1,
         ⟨n, ann.map Expr.unparse⟩ :: (class_body_scan rest).2)
    ∧ class_body_scan (.assign (.name n :: ts) v :: rest)
      = ((class_body_scan rest).1,
         ⟨n, (none : Option String)⟩ :: (class_body_scan rest).2)
    ∧ class_body_scan (.annAssign t ann :: rest) = class_body_scan rest
    ∧ class_body_scan (.assign (t :: ts) v :: rest) = class_body_scan rest
    ∧ class_body_scan (.assign [] v :: rest) = class_body_scan rest := by
  refine ⟨?_, ?_, ?_, ?_, ?_⟩
  · simp [class_body_scan, hn]
  · simp [class_body_scan, hn]
  · cases t with
    | name id => exact absurd rfl (ht id)
    | _ => simp [class_body_scan]
  · cases t with
    | name id => exact absurd rfl (ht id)
    | _ => simp [class_body_scan]
  · simp [class_body_scan]

/-- Witness for C6 at concrete class-body statements: `x: int = 1`,
`x = 1` with a spare extra target, a tuple-target annotated assignment,
a tuple-target plain assignment, and a targetless assignment. -/
theorem spec_C6_witness :
    class_body_scan [.annAssign (.name "x") (some ⟨"int"⟩)]
      = ([], [{ name := "x", type := some "int" }])
    ∧ class_body_scan [.assign [.name "x", .name "y"] ⟨"1"⟩]
      = ([], [{ name := "x", type := none }])
    ∧ class_body_scan [.annAssign .tuple (some ⟨"int"⟩)] = class_body_scan []
    ∧ class_body_scan [.assign [.tuple, .name "y"] ⟨"1"⟩] = class_body_scan []
    ∧ class_body_scan [.assign [] ⟨"1"⟩] = class_body_scan [] :=
  spec_C6 [] "x" [.name "y"] ⟨"1"⟩ (some ⟨"int"⟩) .tuple
    (by decide) (fun id h => by cases h)

end Pycodemap
